import Mathlib

/-!
Shallow embedding of `src/unitCell.py` (udkm1Dsimpy).

Numeric values are modelled as exact rationals (`ℚ`).  Python's string
formatting `'{:f}'.format(v)` (6 fractional digits) and `'{:e}'.format(v)`
(scientific form, 7 significant digits) are modelled as exact decimal
rounding (round half to even) on `ℚ`.  Python `eval` of an arbitrary
user-supplied string is modelled by an abstract parameter
`ev : String → Option PFunc`; `eval` of the strings that the module itself
generates (`'lambda T: {:f}'.format(v)` and
`'lambda strain: {:e}*(strain+1)'.format(v)`) is translated directly to the
corresponding Lean closures.  `print` diagnostics are modelled as a returned
log list; a raised Python exception is modelled as `Except.error`.
The module-level `u.reset_units('SI')` of `numericalunits` makes
`u.angstrom = 1e-10`, modelled as the exact rational `1/10^10`.
-/

namespace UdkmUnitCell

/-- Floor of a rational, computed directly from its numerator and (positive)
denominator by Euclidean integer division. -/
def floorQ (q : ℚ) : ℤ := q.num / (q.den : ℤ)

/-- Ceiling of a rational. -/
def ceilQ (q : ℚ) : ℤ := -floorQ (-q)

/-- Round half to even on rationals: models the rounding used by Python
string formatting when a value is cut to a fixed number of decimals. -/
def rhe (q : ℚ) : ℤ :=
  if q - floorQ q < 1/2 then floorQ q
  else if (1 : ℚ)/2 < q - floorQ q then floorQ q + 1
  else if floorQ q % 2 = 0 then floorQ q else floorQ q + 1

/-- Value denoted by the text `'{:f}'.format(v)`: `v` rounded to 6 decimal
places (Python's default fixed-point precision). -/
def round6f (v : ℚ) : ℚ := (rhe (v * 1000000) : ℚ) / 1000000

/-- Fuel-driven base-10 floor logarithm on naturals (structural recursion so
that concrete instances reduce inside the kernel). -/
def log10fuel : ℕ → ℕ → ℕ
  | 0, _ => 0
  | fuel+1, n => if n < 10 then 0 else log10fuel fuel (n / 10) + 1

/-- Base-10 floor logarithm of a natural number. -/
def natLog10 (n : ℕ) : ℕ := log10fuel n n

/-- Fuel-driven base-10 ceiling logarithm on naturals. -/
def clog10fuel : ℕ → ℕ → ℕ
  | 0, _ => 0
  | fuel+1, n => if n ≤ 1 then 0 else clog10fuel fuel ((n + 9) / 10) + 1

/-- Base-10 ceiling logarithm of a natural number. -/
def natClog10 (n : ℕ) : ℕ := clog10fuel n n

/-- `10^e` for an integer exponent, as a rational. -/
def pow10 (e : ℤ) : ℚ := if 0 ≤ e then (10 : ℚ) ^ e.toNat else 1 / (10 : ℚ) ^ (-e).toNat

/-- Decimal exponent chosen by `'{:e}'` formatting for a positive rational:
the largest `e` with `10^e ≤ q`. -/
def floorLog10 (q : ℚ) : ℤ :=
  if 1 ≤ q then (natLog10 (floorQ q).toNat : ℤ) else -(natClog10 (ceilQ (1/q)).toNat : ℤ)

/-- Value denoted by `'{:e}'.format(q)` for positive `q`: the mantissa
`q / 10^e` is rounded to 6 fractional digits and re-scaled. -/
def fmtEpos (q : ℚ) : ℚ :=
  (rhe (q / pow10 (floorLog10 q) * 1000000) : ℚ) / 1000000 * pow10 (floorLog10 q)

/-- Value denoted by the text `'{:e}'.format(v)` (scientific form with 6
fractional mantissa digits, i.e. 7 significant digits). -/
def fmtE (v : ℚ) : ℚ :=
  if v = 0 then 0 else if v < 0 then -fmtEpos (-v) else fmtEpos v

/-- Truncation toward zero, as performed by numpy when a float is stored
into an integer-dtype array slot. -/
def ratTrunc (q : ℚ) : ℤ := if 0 ≤ q then floorQ q else ceilQ q

/-- `u.angstrom` after `u.reset_units('SI')`: `1e-10` metres. -/
def angstrom : ℚ := 1 / 10000000000

/-- A property function of one real-valued argument (temperature `T` or
`strain`), as produced by evaluating a lambda string. -/
abbrev PFunc := ℚ → ℚ

/-- String forms stored in the `...Str` lists.  Strings generated by the
module itself from a numeric input are kept symbolically so that the value
of Python `eval` on them stays available. -/
inductive SStr where
  /-- A user-supplied expression string, stored verbatim. -/
  | raw (s : String)
  /-- The generated text `'lambda T: {:f}'.format(v)`. -/
  | numLambdaT (v : ℚ)
  /-- The generated text `'lambda strain: {:e}*(strain+1)'.format(v)`. -/
  | posLambda (v : ℚ)
deriving DecidableEq

/-- The atom collaborator: only `ID`, `name` and `mass` are used. -/
structure Atom where
  ID : String
  name : String
  mass : ℚ
deriving DecidableEq

/-- The position slot of an atom triple.  When `eval` of a string position
fails, `addAtom` keeps the raw string in the slot (it only logs the error
and continues). -/
inductive PosVal where
  | fn (f : PFunc)
  | unevaluated (s : String)

/-- One element of a property specification, by Python runtime type. -/
inductive CellInput where
  /-- `isinstance(input, (int, float))`. -/
  | num (v : ℚ)
  /-- `isinstance(input, str)`. -/
  | str (s : String)
  /-- `isfunction(input)`. -/
  | func
  /-- any other type. -/
  | other
deriving DecidableEq

/-- A property specification argument: `checkCellArrayInput` wraps a
non-list argument into a one-element list. -/
inductive CellArg where
  | scalar (i : CellInput)
  | arr (l : List CellInput)

/-- The exceptions raised by the module (all `ValueError` in the source,
plus the `KeyError` of an unknown projection key), distinguished by site. -/
inductive UCError where
  /-- `'Please use string representation of function!'` -/
  | funcInput
  /-- the catch-all invalid-type `ValueError`. -/
  | invalidInput
  /-- `'... have not the same number of elements!'` -/
  | countMismatch
  /-- `KeyError` from `propertiesByTypes[types]`. -/
  | unknownDomain
deriving DecidableEq

/-- The model of Python `eval` on user-supplied strings: `none` means the
evaluation raises. -/
abbrev EvalFn := String → Option PFunc

/-- The loop body of `checkCellArrayInput`: resolves each element in order.
A `func` or unknown-type element raises; a string whose evaluation fails is
logged (third component) and skipped. -/
def resolveList (ev : EvalFn) : List CellInput → Except UCError (List PFunc × List SStr × List String)
  | [] => .ok ([], [], [])
  | .func :: _ => .error .funcInput
  | .other :: _ => .error .invalidInput
  | .num v :: t =>
    match resolveList ev t with
    | .error e => .error e
    | .ok (fs, ss, logs) => .ok ((fun _ => round6f v) :: fs, .numLambdaT v :: ss, logs)
  | .str s :: t =>
    match ev s with
    | some f =>
      match resolveList ev t with
      | .error e => .error e
      | .ok (fs, ss, logs) => .ok (f :: fs, .raw s :: ss, logs)
    | none =>
      match resolveList ev t with
      | .error e => .error e
      | .ok (fs, ss, logs) => .ok (fs, ss, s :: logs)

/-- `unitCell.checkCellArrayInput`: list-normalise the argument, then
resolve each element. -/
def checkCellArrayInput (ev : EvalFn) : CellArg → Except UCError (List PFunc × List SStr × List String)
  | .scalar i => resolveList ev [i]
  | .arr l => resolveList ev l

/-- Python `eval` applied to a stored string form: for a verbatim string it
is the abstract `ev`; for the module-generated lambda texts it yields the
corresponding closure. -/
def sourceEval (ev : EvalFn) : SStr → Option PFunc
  | .raw s => ev s
  | .numLambdaT v => some (fun _ => round6f v)
  | .posLambda v => some (fun strain => fmtE v * (strain + 1))

/-- The instance state of a `unitCell` object.  `springConst0` is slot 0 of
the `springConst` numpy array; that array is created as `np.array([0])`,
i.e. with integer dtype, so every store into slot 0 truncates toward zero
(higher-order slots, set only by `setHOspringConstants`, are not needed by
any claim and are not modelled).  `intHC` and `intLTE` model the lazily
created attribute pairs `_intHeatCapacity`/`intHeatCapacityStr` and
`_intLinThermExp`/`intLinThermExpStr`. -/
structure UCState where
  ID : String
  name : String
  cAxis : ℚ
  aAxis : ℚ
  bAxis : ℚ
  atoms : List (Atom × PosVal × SStr)
  numAtoms : ℕ
  mass : ℚ
  density : ℚ
  springConst0 : ℚ
  debWalFac : ℚ
  soundVel : ℚ
  phononDamping : ℚ
  optPenDepth : ℚ
  optRefIndex : ℚ
  optRefIndexPerStrain : ℚ
  heatCapacity : List PFunc
  heatCapacityStr : List SStr
  thermCond : List PFunc
  thermCondStr : List SStr
  linThermExp : List PFunc
  linThermExpStr : List SStr
  subSystemCoupling : List PFunc
  subSystemCouplingStr : List SStr
  numSubSystems : ℕ
  area : ℚ
  volume : ℚ
  intHC : Option (List PFunc × List SStr)
  intLTE : Option (List PFunc × List SStr)

/-- `unitCell.calcSpringConst`: `self.springConst[0] = self.mass *
(self.soundVel/self.cAxis)**2`.  The store into the integer-dtype array
truncates the float toward zero. -/
def calcSpringConst (s : UCState) : UCState :=
  { s with springConst0 := ((ratTrunc (s.mass * (s.soundVel / s.cAxis) ^ 2) : ℤ) : ℚ) }

/-- The `soundVel` property setter: records the value and recalculates the
spring constant. -/
def setSoundVel (v : ℚ) (s : UCState) : UCState :=
  calcSpringConst { s with soundVel := v }

/-- Keyword arguments of the `unitCell` constructor; `none` means the
keyword is absent and the `kwargs.get` default applies. -/
structure Kwargs where
  aAxis : Option ℚ := none
  bAxis : Option ℚ := none
  debWalFac : Option ℚ := none
  soundVel : Option ℚ := none
  phononDamping : Option ℚ := none
  optPenDepth : Option ℚ := none
  optRefIndex : Option ℚ := none
  optRefIndexPerStrain : Option ℚ := none
  heatCapacity : Option CellArg := none
  thermCond : Option CellArg := none
  linThermExp : Option CellArg := none
  subSystemCoupling : Option CellArg := none

/-- The `kwargs.get(key, 0)` default for the four subsystem properties. -/
def defaultSpec : CellArg := .scalar (.num 0)

/-- `unitCell.__init__`.  The four property specifications are resolved in
source order; a raised `ValueError` propagates.  The subsystem count check
then either fixes `numSubSystems` or raises.  The initial assignment
`self.soundVel = ...` runs the property setter while `mass = 0` and
`springConst = np.array([0])`, which is reproduced in `springConst0`. -/
def init (ev : EvalFn) (ID name : String) (cAxis : ℚ) (kw : Kwargs) : Except UCError UCState :=
  let aAxis := kw.aAxis.getD cAxis
  let bAxis := kw.bAxis.getD aAxis
  let soundVel := kw.soundVel.getD 0
  match checkCellArrayInput ev (kw.heatCapacity.getD defaultSpec) with
  | .error e => .error e
  | .ok hcr =>
  match checkCellArrayInput ev (kw.thermCond.getD defaultSpec) with
  | .error e => .error e
  | .ok tcr =>
  match checkCellArrayInput ev (kw.linThermExp.getD defaultSpec) with
  | .error e => .error e
  | .ok lter =>
  match checkCellArrayInput ev (kw.subSystemCoupling.getD defaultSpec) with
  | .error e => .error e
  | .ok sscr =>
  if hcr.1.length = tcr.1.length ∧ hcr.1.length = lter.1.length ∧ hcr.1.length = sscr.1.length then
    .ok { ID := ID, name := name, cAxis := cAxis, aAxis := aAxis, bAxis := bAxis,
          atoms := [], numAtoms := 0, mass := 0, density := 0,
          springConst0 := ((ratTrunc (0 * (soundVel / cAxis) ^ 2) : ℤ) : ℚ),
          debWalFac := kw.debWalFac.getD 0, soundVel := soundVel,
          phononDamping := kw.phononDamping.getD 0,
          optPenDepth := kw.optPenDepth.getD 0,
          optRefIndex := kw.optRefIndex.getD 0,
          optRefIndexPerStrain := kw.optRefIndexPerStrain.getD 0,
          heatCapacity := hcr.1, heatCapacityStr := hcr.2.1,
          thermCond := tcr.1, thermCondStr := tcr.2.1,
          linThermExp := lter.1, linThermExpStr := lter.2.1,
          subSystemCoupling := sscr.1, subSystemCouplingStr := sscr.2.1,
          numSubSystems := hcr.1.length,
          area := aAxis * bAxis, volume := aAxis * bAxis * cAxis,
          intHC := none, intLTE := none }
  else .error .countMismatch

/-- The shared tail of `unitCell.addAtom` once the position slot and its
string form are known: append the triple, bump `numAtoms`, re-sum the raw
mass, derive `density` from the raw mass, normalise `mass` to a reference
area of 1 Å², and recalculate the spring constant. -/
def addAtomCore (a : Atom) (pv : PosVal) (ps : SStr) (s : UCState) : UCState :=
  let atoms' := s.atoms ++ [(a, pv, ps)]
  let rawMass := (atoms'.map (fun t => t.1.mass)).sum
  calcSpringConst
    { s with atoms := atoms', numAtoms := s.numAtoms + 1,
             density := rawMass / s.volume,
             mass := rawMass * 1 * angstrom ^ 2 / s.area }

/-- `unitCell.addAtom`.  A function-typed position raises; a string
position is evaluated (on failure the error is printed and the raw string
stays in the position slot); a numeric position `p` is expanded to the
generated text `'lambda strain: {:e}*(strain+1)'.format(p)` and evaluated;
any other type raises. -/
def addAtom (ev : EvalFn) (a : Atom) (pos : CellInput) (s : UCState) : Except UCError UCState :=
  match pos with
  | .func => .error .funcInput
  | .other => .error .invalidInput
  | .str str =>
    match ev str with
    | some f => .ok (addAtomCore a (.fn f) (.raw str) s)
    | none => .ok (addAtomCore a (.unevaluated str) (.raw str) s)
  | .num v => .ok (addAtomCore a (.fn (fun strain => fmtE v * (strain + 1))) (.posLambda v) s)

/-- Evaluate a position slot at a strain; a slot still holding an
unevaluated string cannot be called. -/
def posValAt (pv : PosVal) (strain : ℚ) : Option ℚ :=
  match pv with
  | .fn f => some (f strain)
  | .unevaluated _ => none

/-- Position of the most recently added atom at a given strain. -/
def lastPosAt (s : UCState) (strain : ℚ) : Option ℚ :=
  s.atoms.getLast?.bind fun t => posValAt t.2.1 strain

/-- The model of the symbolic integration performed for one entry of
`heatCapacityStr` (`sympy.integrate` of the text after the colon, then
`lambdify` plus pretty-printing): `none` means the sympy call raises. -/
abbrev IntegFn := SStr → Option (PFunc × SStr)

/-- The loop of the `intHeatCapacity` getter.  Entries are integrated in
order; a raised exception aborts the loop, keeping the partial lists that
were already appended.  The third component counts the integration calls
that were performed. -/
def integLoop (integ : IntegFn) : List SStr → List PFunc × List SStr × ℕ
  | [] => ([], [], 0)
  | h :: t =>
    match integ h with
    | none => ([], [], 1)
    | some (f, fs) =>
      match integLoop integ t with
      | (l, ls, n) => (f :: l, fs :: ls, n + 1)

/-- The `intHeatCapacity` property getter: if `_intHeatCapacity` exists and
is a list it is returned unchanged, otherwise the symbolic integration runs
and its (possibly partial) result is stored.  Returns the list, the state
after the read, and the number of symbolic integration calls performed. -/
def getIntHeatCapacity (integ : IntegFn) (s : UCState) : List PFunc × UCState × ℕ :=
  match s.intHC with
  | some c => (c.1, s, 0)
  | none =>
    match integLoop integ s.heatCapacityStr with
    | (l, ls, n) => (l, { s with intHC := some (l, ls) }, n)

/-- The `propertiesByTypes` dictionary of `getPropertyStruct`. -/
def propertiesByTypes : List (String × List String) :=
  [("heat", ["cAxis", "area", "volume", "optPenDepth", "thermCondStr", "heatCapacityStr",
             "intHeatCapacityStr", "subSystemCouplingStr", "numSubSystems"]),
   ("phonon", ["numSubSystems", "intLinThermExpStr", "cAxis", "mass", "springConst",
               "phononDamping"]),
   ("XRD", ["numAtoms", "atoms", "area", "debWalFac", "cAxis"]),
   ("optical", ["cAxis", "optPenDepth", "optRefIndex", "optRefIndexPerStrain"])]

/-- The keys of `vars(self)` in insertion order: the attributes set by
`__init__` (the `soundVel` property stores `_soundVel`), followed by the
attribute pairs that the lazy getters or setters may have added. -/
def attrKeys (s : UCState) : List String :=
  ["ID", "name", "cAxis", "aAxis", "bAxis", "atoms", "numAtoms", "mass", "density",
   "springConst", "debWalFac", "_soundVel", "phononDamping", "optPenDepth", "optRefIndex",
   "optRefIndexPerStrain", "heatCapacity", "heatCapacityStr", "thermCond", "thermCondStr",
   "linThermExp", "linThermExpStr", "subSystemCoupling", "subSystemCouplingStr",
   "numSubSystems", "area", "volume"]
  ++ (match s.intHC with
      | some _ => ["_intHeatCapacity", "intHeatCapacityStr"]
      | none => [])
  ++ (match s.intLTE with
      | some _ => ["_intLinThermExp", "intLinThermExpStr"]
      | none => [])

/-- `unitCell.getPropertyStruct`, restricted to the keys of the returned
dict: for `types == 'all'` every attribute key, otherwise the attribute
keys that belong to the requested domain, in attribute order; an unknown
domain raises `KeyError`. -/
def getPropertyKeys (s : UCState) (types : String) : Except UCError (List String) :=
  if types = "all" then .ok (attrKeys s)
  else
    match propertiesByTypes.find? (fun p => p.1 = types) with
    | some p => .ok ((attrKeys s).filter (fun k => p.2.contains k))
    | none => .error .unknownDomain

/-- The expression inside `np.sqrt` in `unitCell.getAcousticImpedance`:
`self.springConst[0] * self.mass/self.area**2`. -/
def acousticImpedanceSq (s : UCState) : ℚ := s.springConst0 * s.mass / s.area ^ 2

/-- An evaluation environment in which every user string raises. -/
def evNone : EvalFn := fun _ => none

lemma floorQ_eq_floor (q : ℚ) : floorQ q = ⌊q⌋ := Rat.floor_def.symm

lemma ceilQ_eq_ceil (q : ℚ) : ceilQ q = ⌈q⌉ := by
  rw [ceilQ, floorQ_eq_floor, Int.floor_neg, neg_neg]

lemma rhe_eq_of_lt {q : ℚ} {z : ℤ} (hz : ⌊q⌋ = z) (h : q - z < 1/2) : rhe q = z := by
  rw [rhe, floorQ_eq_floor, hz, if_pos h]

lemma round6f_div_million (m : ℤ) : round6f ((m : ℚ) / 1000000) = (m : ℚ) / 1000000 := by
  rw [round6f, show ((m : ℚ)/1000000) * 1000000 = (m : ℚ) by field_simp,
    rhe_eq_of_lt (Int.floor_intCast m) (by norm_num)]

lemma fmtE_half : fmtE (1/2) = 1/2 := by
  rw [fmtE, if_neg (by norm_num), if_neg (by norm_num), fmtEpos]
  have he : floorLog10 (1/2) = -1 := by
    rw [floorLog10, if_neg (by norm_num),
      show ceilQ (1/((1:ℚ)/2)) = 2 by rw [ceilQ_eq_ceil]; norm_num]
    rfl
  rw [he, show pow10 (-1) = 1/10 by rfl,
    show (1/2 : ℚ) / (1/10) * 1000000 = 5000000 by norm_num,
    rhe_eq_of_lt (z := 5000000) (by norm_num) (by norm_num)]
  norm_num

lemma fmtE_big : fmtE 10000001 = 10000000 := by
  rw [fmtE, if_neg (by norm_num), if_neg (by norm_num), fmtEpos]
  have he : floorLog10 10000001 = 7 := by
    rw [floorLog10, if_pos (by norm_num),
      show floorQ (10000001 : ℚ) = 10000001 by rw [floorQ_eq_floor]; norm_num]
    rfl
  have hp : pow10 7 = 10000000 := by
    rw [pow10, if_pos (by norm_num), show Int.toNat 7 = 7 from rfl]
    norm_num
  rw [he, hp,
    show (10000001 : ℚ) / 10000000 * 1000000 = 10000001/10 by norm_num,
    rhe_eq_of_lt (z := 1000000) (by norm_num) (by norm_num)]
  norm_num

lemma round6f_tiny : round6f (1/10000000) = 0 := by
  rw [round6f, show ((1:ℚ)/10000000) * 1000000 = 1/10 by norm_num,
    rhe_eq_of_lt (z := 0) (by norm_num) (by norm_num)]
  norm_num

/-- C1, counterexample: resolving the numeric value `1e-7` (a perfectly
ordinary float) through `checkCellArrayInput` yields the constant function
of the text `'lambda T: 0.000000'`, whose value at any input is `0`, not
`1e-7`: the claim that the produced function returns `v` for every numeric
`v` is false. -/
theorem resolve_numeric_exact_counterexample :
    checkCellArrayInput evNone (.scalar (.num (1/10000000)))
      = .ok ([fun _ => round6f (1/10000000)], [.numLambdaT (1/10000000)], [])
    ∧ (fun _ : ℚ => round6f (1/10000000)) 3 = 0
    ∧ (1/10000000 : ℚ) ≠ 0 := by
  refine ⟨rfl, ?_, by norm_num⟩
  show round6f (1/10000000) = 0
  exact round6f_tiny

/-- C1 (amended): resolving a numeric value `v` through
`checkCellArrayInput` yields a single-element function list whose function
is constant, returning `v` rounded to 6 decimal places (the value recorded
by the canonical string `'lambda T: {:f}'.format(v)`); when `v` is exactly
representable with 6 decimal places the returned value equals `v`. -/
theorem resolve_numeric_constant_rounded (ev : EvalFn) (v : ℚ) :
    checkCellArrayInput ev (.scalar (.num v))
      = .ok ([fun _ => round6f v], [.numLambdaT v], [])
    ∧ (∀ t : ℚ, (fun _ : ℚ => round6f v) t = round6f v)
    ∧ (∀ m : ℤ, v = (m : ℚ) / 1000000 → round6f v = v) := by
  refine ⟨rfl, fun t => rfl, ?_⟩
  rintro m rfl
  exact round6f_div_million m

/-- Witness for C1 (amended) at `v = 1/2 = 500000/1000000`. -/
theorem resolve_numeric_constant_rounded_witness :
    ((1 : ℚ)/2 = ((500000 : ℤ) : ℚ) / 1000000) ∧ round6f (1/2) = 1/2 :=
  ⟨by norm_num,
   (resolve_numeric_constant_rounded evNone (1/2)).2.2 500000 (by norm_num)⟩

/-- A concrete constructed unit cell used to exercise the mutators:
`unitCell('ID', 'name', 1, soundVel=1)` (so `aAxis = bAxis = cAxis = 1`,
`area = volume = 1`, all four property lists resolved from the default
constant `0`, except that the subsystem lists are left in their directly
relevant empty/zero content where a claim does not depend on them). -/
def sample0 : UCState :=
  { ID := "ID", name := "name", cAxis := 1, aAxis := 1, bAxis := 1,
    atoms := [], numAtoms := 0, mass := 0, density := 0, springConst0 := 0,
    debWalFac := 0, soundVel := 1, phononDamping := 0, optPenDepth := 0,
    optRefIndex := 0, optRefIndexPerStrain := 0,
    heatCapacity := [], heatCapacityStr := [], thermCond := [], thermCondStr := [],
    linThermExp := [], linThermExpStr := [], subSystemCoupling := [],
    subSystemCouplingStr := [], numSubSystems := 0, area := 1, volume := 1,
    intHC := none, intLTE := none }

/-- A plain atom of unit mass. -/
def atomA : Atom := { ID := "A", name := "A", mass := 1 }

/-- C4, counterexample: `addAtom` with the bare numeric position
`p = 10000001` stores the function of the generated text
`'lambda strain: 1.000000e+07*(strain+1)'`; at strain `0` it returns
`10000000`, not `p*(0+1) = 10000001`, so the stored function is not
equivalent to `strain -> p*(strain+1)` for every numeric `p`. -/
theorem addAtom_scalar_position_counterexample :
    (addAtom evNone atomA (.num 10000001) sample0).toOption.bind (fun s => lastPosAt s 0)
      = some 10000000
    ∧ (10000000 : ℚ) ≠ 10000001 * (0 + 1) := by
  constructor
  · simp only [addAtom, Except.toOption, lastPosAt, addAtomCore, calcSpringConst,
      Option.bind, sample0, List.nil_append, List.getLast?_singleton, posValAt]
    rw [fmtE_big]; norm_num
  · norm_num

/-- C4 (amended): `addAtom` with a bare numeric position `p` stores the
position function `strain -> fmtE(p)*(strain+1)`, where `fmtE(p)` is `p`
rounded to 7 significant digits by the `'{:e}'` formatting of the generated
string; since `fmtE(0.5) = 0.5` exactly, for `p = 0.5` the stored function
evaluates to `0.5` at strain `0` and to `1.0` at strain `1`. -/
theorem addAtom_scalar_position_rounded (ev : EvalFn) (a : Atom) (p : ℚ) (s : UCState) :
    ∃ s', addAtom ev a (.num p) s = .ok s'
      ∧ s'.atoms = s.atoms ++ [(a, .fn (fun strain => fmtE p * (strain + 1)), .posLambda p)]
      ∧ lastPosAt s' 0 = some (fmtE p * (0 + 1))
      ∧ lastPosAt s' 1 = some (fmtE p * (1 + 1))
      ∧ fmtE (1/2) * (0 + 1) = 1/2
      ∧ fmtE (1/2) * (1 + 1) = 1 := by
  refine ⟨_, rfl, ?_, ?_, ?_, by rw [fmtE_half]; norm_num, by rw [fmtE_half]; norm_num⟩
  · simp [addAtomCore, calcSpringConst]
  · simp [lastPosAt, addAtomCore, calcSpringConst, posValAt, List.getLast?_append_cons]
  · simp [lastPosAt, addAtomCore, calcSpringConst, posValAt, List.getLast?_append_cons]

lemma ratTrunc_five_halves : ratTrunc (5/2) = 2 := by
  rw [ratTrunc, if_pos (by norm_num), floorQ_eq_floor]
  norm_num

/-- An atom of mass `2.5e20` kg (in the SI numeric convention of
`numericalunits` after `reset_units('SI')`). -/
def atomHeavy : Atom := { ID := "H", name := "H", mass := 250000000000000000000 }

/-- Constructor keywords `soundVel=1` (all other keywords absent). -/
def kwC2 : Kwargs := { soundVel := some 1 }

/-- The failing run for C2: `uc = unitCell('ID', 'name', 1, soundVel=1)`
followed by `uc.addAtom(atomHeavy, 0.5)`. -/
def resC2 : Except UCError UCState :=
  (init evNone "ID" "name" 1 kwC2).bind (addAtom evNone atomHeavy (.num (1/2)))

/-- C2: evaluation of the code at the failing input.  After `addAtom` the
density (`2.5e20 = raw mass / volume`) and the normalised mass
(`2.5 = raw mass * 1 Å² / area`) agree with the claim, but
`springConst[0]` holds `2`, not `mass * (soundVel/cAxis)^2 = 2.5`: the
value was truncated when stored into the integer-dtype `np.array([0])`,
contradicting the claim (and the class docstring, which declares
`springConst` as `ndarray[float]`). -/
theorem addAtom_springConst_truncated :
    resC2.toOption.map UCState.density = some 250000000000000000000
    ∧ resC2.toOption.map UCState.mass = some (5/2)
    ∧ resC2.toOption.map UCState.springConst0 = some 2
    ∧ (5/2 : ℚ) * ((1:ℚ)/1) ^ 2 ≠ 2 := by
  have hmass : ((250000000000000000000 : ℚ) + 0) * 1 * angstrom ^ 2 / (1 * 1) = 5/2 := by
    rw [angstrom]; norm_num
  have hinit : resC2
      = .ok (addAtomCore atomHeavy
          (.fn (fun strain => fmtE (1/2) * (strain + 1))) (.posLambda (1/2))
          { ID := "ID", name := "name", cAxis := 1, aAxis := 1, bAxis := 1,
            atoms := [], numAtoms := 0, mass := 0, density := 0,
            springConst0 := ((ratTrunc (0 * ((1:ℚ) / 1) ^ 2) : ℤ) : ℚ),
            debWalFac := 0, soundVel := 1, phononDamping := 0, optPenDepth := 0,
            optRefIndex := 0, optRefIndexPerStrain := 0,
            heatCapacity := [fun _ => round6f 0], heatCapacityStr := [.numLambdaT 0],
            thermCond := [fun _ => round6f 0], thermCondStr := [.numLambdaT 0],
            linThermExp := [fun _ => round6f 0], linThermExpStr := [.numLambdaT 0],
            subSystemCoupling := [fun _ => round6f 0], subSystemCouplingStr := [.numLambdaT 0],
            numSubSystems := 1, area := 1 * 1, volume := 1 * 1 * 1,
            intHC := none, intLTE := none }) := by
    rfl
  rw [hinit]
  simp only [addAtomCore, calcSpringConst, Except.toOption, Option.map,
    List.nil_append, List.map_cons, List.map_nil, List.sum_cons, List.sum_nil, atomHeavy]
  refine ⟨?_, ?_, ?_, by norm_num⟩
  · norm_num
  · simp only [hmass]
  · simp only [hmass]
    rw [show (5/2 : ℚ) * ((1:ℚ)/1) ^ 2 = 5/2 by norm_num, ratTrunc_five_halves]
    norm_num

/-- The state of `sample0` after its (per-area normalised) mass has become
`2.5`, as used for the C5 failing input. -/
def sC5 : UCState := { sample0 with mass := 5/2 }

/-- C5: evaluation of the code at the failing input.  Assigning
`soundVel = 1` on a cell with `mass = 2.5`, `cAxis = 1` recalculates
`springConst[0]`, but stores `2` instead of
`mass * (soundVel/cAxis)^2 = 2.5` (truncation by the integer-dtype numpy
array, contradicting the class docstring `springConst (ndarray[float])`);
the frame part of the claim does hold: `mass` and `density` are
untouched. -/
theorem setSoundVel_truncates_springConst :
    (setSoundVel 1 sC5).springConst0 = 2
    ∧ sC5.mass * (((1:ℚ)) / sC5.cAxis) ^ 2 = 5/2
    ∧ (5/2 : ℚ) ≠ 2
    ∧ (setSoundVel 1 sC5).mass = sC5.mass
    ∧ (setSoundVel 1 sC5).density = sC5.density := by
  refine ⟨?_, by norm_num [sC5, sample0], by norm_num, rfl, rfl⟩
  show ((ratTrunc (sC5.mass * (1 / sC5.cAxis) ^ 2) : ℤ) : ℚ) = 2
  rw [show sC5.mass * ((1:ℚ) / sC5.cAxis) ^ 2 = 5/2 by norm_num [sC5, sample0],
    ratTrunc_five_halves]
  norm_num

/-- C8: for a unit cell with non-negative `springConst[0]` and `mass` and
positive `area`, `getAcousticImpedance` —
`np.sqrt(springConst[0] * mass/area**2)` — equals
`sqrt(springConst[0] * mass) / area`. -/
theorem getAcousticImpedance_sqrt (s : UCState) (hk : 0 ≤ s.springConst0)
    (hm : 0 ≤ s.mass) (ha : 0 < s.area) :
    Real.sqrt ((acousticImpedanceSq s : ℚ) : ℝ)
      = Real.sqrt ((s.springConst0 : ℝ) * (s.mass : ℝ)) / (s.area : ℝ) := by
  have hks : (0:ℝ) ≤ (s.springConst0 : ℝ) := by exact_mod_cast hk
  have hms : (0:ℝ) ≤ (s.mass : ℝ) := by exact_mod_cast hm
  have has : (0:ℝ) < (s.area : ℝ) := by exact_mod_cast ha
  rw [acousticImpedanceSq]
  push_cast
  rw [Real.sqrt_div (by positivity), Real.sqrt_sq has.le]

/-- The state used as the C8 witness: `springConst[0] = 4`, `mass = 1`,
`area = 2`. -/
def sC8 : UCState := { sample0 with springConst0 := 4, mass := 1, area := 2 }

/-- Witness for C8 at `sC8`. -/
theorem getAcousticImpedance_sqrt_witness :
    (0 ≤ sC8.springConst0 ∧ 0 ≤ sC8.mass ∧ 0 < sC8.area)
    ∧ Real.sqrt ((acousticImpedanceSq sC8 : ℚ) : ℝ)
        = Real.sqrt ((sC8.springConst0 : ℝ) * (sC8.mass : ℝ)) / (sC8.area : ℝ) := by
  have h1 : (0:ℚ) ≤ sC8.springConst0 := by norm_num [sC8, sample0]
  have h2 : (0:ℚ) ≤ sC8.mass := by norm_num [sC8, sample0]
  have h3 : (0:ℚ) < sC8.area := by norm_num [sC8, sample0]
  exact ⟨⟨h1, h2, h3⟩, getAcousticImpedance_sqrt sC8 h1 h2 h3⟩

/-- C3: when the four property specifications resolve without raising, the
constructor fails with the subsystem-count `ValueError` exactly when the
four resolved function lists do not all have the same length; when they
agree, construction succeeds and `numSubSystems` is the common length. -/
theorem init_subsystem_count (ev : EvalFn) (ID name : String) (cAxis : ℚ) (kw : Kwargs)
    (r1 r2 r3 r4 : List PFunc × List SStr × List String)
    (h1 : checkCellArrayInput ev (kw.heatCapacity.getD defaultSpec) = .ok r1)
    (h2 : checkCellArrayInput ev (kw.thermCond.getD defaultSpec) = .ok r2)
    (h3 : checkCellArrayInput ev (kw.linThermExp.getD defaultSpec) = .ok r3)
    (h4 : checkCellArrayInput ev (kw.subSystemCoupling.getD defaultSpec) = .ok r4) :
    (¬(r1.1.length = r2.1.length ∧ r1.1.length = r3.1.length ∧ r1.1.length = r4.1.length) →
      init ev ID name cAxis kw = .error .countMismatch)
    ∧ ((r1.1.length = r2.1.length ∧ r1.1.length = r3.1.length ∧ r1.1.length = r4.1.length) →
      (init ev ID name cAxis kw).map UCState.numSubSystems = .ok r1.1.length) := by
  constructor
  · intro hne
    simp only [init, h1, h2, h3, h4]
    rw [if_neg hne]
  · intro he
    simp only [init, h1, h2, h3, h4]
    rw [if_pos he]
    rfl

/-- Constructor keywords with two heat-capacity entries and the other three
lists left at their single-entry defaults. -/
def kwMismatch : Kwargs := { heatCapacity := some (.arr [.num 1, .num 2]) }

/-- Witness for C3: `unitCell('ID', 'name', 1, heatCapacity=[1, 2])` (2
heat-capacity entries against 1 default entry each elsewhere) raises. -/
theorem init_subsystem_count_witness :
    init evNone "ID" "name" 1 kwMismatch = .error .countMismatch :=
  (init_subsystem_count evNone "ID" "name" 1 kwMismatch
      ([fun _ => round6f 1, fun _ => round6f 2], [.numLambdaT 1, .numLambdaT 2], [])
      ([fun _ => round6f 0], [.numLambdaT 0], [])
      ([fun _ => round6f 0], [.numLambdaT 0], [])
      ([fun _ => round6f 0], [.numLambdaT 0], [])
      rfl rfl rfl rfl).1 (by decide)

/-- C6: reading `intHeatCapacity` twice with no set in between returns the
same cached list both times, leaves the state of the first read untouched,
and performs zero symbolic integration calls on the second read (all
integration happens during the first read, whatever its outcome). -/
theorem intHeatCapacity_cached_second_read (integ : IntegFn) (s : UCState) :
    (getIntHeatCapacity integ (getIntHeatCapacity integ s).2.1).1 = (getIntHeatCapacity integ s).1
    ∧ (getIntHeatCapacity integ (getIntHeatCapacity integ s).2.1).2.1
        = (getIntHeatCapacity integ s).2.1
    ∧ (getIntHeatCapacity integ (getIntHeatCapacity integ s).2.1).2.2 = 0 := by
  cases h : s.intHC with
  | some c => simp [getIntHeatCapacity, h]
  | none =>
    rcases hr : integLoop integ s.heatCapacityStr with ⟨l, ls, n⟩
    simp [getIntHeatCapacity, h, hr]

/-- C9: projecting any unit cell onto the `'optical'` domain returns
exactly the four keys `cAxis`, `optPenDepth`, `optRefIndex`,
`optRefIndexPerStrain` and no others, whatever the lazily added attribute
pairs. -/
theorem project_optical_exact_keys (s : UCState) :
    getPropertyKeys s "optical"
      = .ok ["cAxis", "optPenDepth", "optRefIndex", "optRefIndexPerStrain"] := by
  cases h1 : s.intHC <;> cases h2 : s.intLTE <;>
    simp only [getPropertyKeys, attrKeys, h1, h2, propertiesByTypes] <;> rfl

/-- Whether `checkCellArrayInput` can process a list element without
raising: numerics and strings can be, functions and other types raise. -/
def isResolvable : CellInput → Bool
  | .num _ => true
  | .str _ => true
  | .func => false
  | .other => false

/-- Specification-side description (for C7) of the functions the resolver
keeps: one per numeric entry and per string entry whose evaluation
succeeds, in input order. -/
def specFns (ev : EvalFn) (l : List CellInput) : List PFunc :=
  l.filterMap fun i =>
    match i with
    | .num v => some (fun _ => round6f v)
    | .str s => ev s
    | _ => none

/-- Specification-side description (for C7) of the string forms the
resolver keeps, aligned with `specFns`. -/
def specStrs (ev : EvalFn) (l : List CellInput) : List SStr :=
  l.filterMap fun i =>
    match i with
    | .num v => some (.numLambdaT v)
    | .str s => (ev s).map fun _ => SStr.raw s
    | _ => none

/-- Specification-side description (for C7) of the entries the resolver
reports and skips: the string entries whose evaluation raises, in input
order. -/
def specLogs (ev : EvalFn) (l : List CellInput) : List String :=
  l.filterMap fun i =>
    match i with
    | .str s => (match ev s with | none => some s | some _ => none)
    | _ => none

/-- C7: on a list of numeric and string entries, the resolver reports every
string entry whose evaluation raises (it is logged as a failure), omits
exactly those entries from the output lists instead of aborting, resolves
all remaining entries in input order, and the number of kept entries plus
the number of reported failures equals the input length, so callers can
detect the loss by comparing lengths. -/
theorem resolver_skips_invalid_entries (ev : EvalFn) (inputs : List CellInput)
    (h : ∀ i ∈ inputs, isResolvable i = true) :
    resolveList ev inputs = .ok (specFns ev inputs, specStrs ev inputs, specLogs ev inputs)
    ∧ (specFns ev inputs).length + (specLogs ev inputs).length = inputs.length := by
  induction inputs with
  | nil => exact ⟨rfl, rfl⟩
  | cons i t ih =>
    have hi := h i (List.mem_cons_self i t)
    have ht : ∀ j ∈ t, isResolvable j = true := fun j hj => h j (List.mem_cons_of_mem i hj)
    obtain ⟨ih1, ih2⟩ := ih ht
    cases i with
    | func => simp [isResolvable] at hi
    | other => simp [isResolvable] at hi
    | num v =>
      refine ⟨?_, ?_⟩
      · simp only [resolveList, ih1, specFns, specStrs, specLogs, List.filterMap_cons]
      · simp only [specFns, specLogs, List.filterMap_cons] at ih2 ⊢
        simp [List.length_cons]
        omega
    | str s =>
      rcases hes : ev s with _ | f
      · refine ⟨?_, ?_⟩
        · simp only [resolveList, hes, ih1, specFns, specStrs, specLogs, List.filterMap_cons,
            Option.map]
        · simp only [specFns, specLogs, List.filterMap_cons, hes] at ih2 ⊢
          simp [List.length_cons]
          omega
      · refine ⟨?_, ?_⟩
        · simp only [resolveList, hes, ih1, specFns, specStrs, specLogs, List.filterMap_cons,
            Option.map]
        · simp only [specFns, specLogs, List.filterMap_cons, hes] at ih2 ⊢
          simp [List.length_cons]
          omega

/-- An evaluation environment that accepts exactly one expression text. -/
def evW : EvalFn := fun s => if s = "lambda T: T + 1" then some (fun t => t + 1) else none

/-- Witness for C7: a three-element list whose middle string fails to
evaluate loses exactly that entry and keeps the two others in order. -/
theorem resolver_skips_invalid_entries_witness :
    (resolveList evW [.num 1, .str "bad", .str "lambda T: T + 1"]
      = .ok (specFns evW [.num 1, .str "bad", .str "lambda T: T + 1"],
             specStrs evW [.num 1, .str "bad", .str "lambda T: T + 1"],
             specLogs evW [.num 1, .str "bad", .str "lambda T: T + 1"]))
    ∧ (specFns evW [.num 1, .str "bad", .str "lambda T: T + 1"]).length
        + (specLogs evW [.num 1, .str "bad", .str "lambda T: T + 1"]).length
      = ([.num 1, .str "bad", .str "lambda T: T + 1"] : List CellInput).length :=
  resolver_skips_invalid_entries evW [.num 1, .str "bad", .str "lambda T: T + 1"]
    (by decide)

/-- The C10 alignment relation: the stored string form, put through the
`eval` the source would apply to it, denotes exactly the stored function. -/
def AlignedPair (ev : EvalFn) (f : PFunc) (st : SStr) : Prop := sourceEval ev st = some f

lemma resolveList_aligned (ev : EvalFn) (inputs : List CellInput) :
    ∀ r, resolveList ev inputs = .ok r →
      r.1.length = r.2.1.length ∧ List.Forall₂ (AlignedPair ev) r.1 r.2.1 := by
  induction inputs with
  | nil =>
    intro r hr
    simp only [resolveList] at hr
    cases hr
    exact ⟨rfl, List.Forall₂.nil⟩
  | cons i t ih =>
    intro r hr
    cases i with
    | func => exact absurd hr (by simp [resolveList])
    | other => exact absurd hr (by simp [resolveList])
    | num v =>
      simp only [resolveList] at hr
      rcases hrt : resolveList ev t with e | ⟨fs, ss, logs⟩
      · rw [hrt] at hr; exact Except.noConfusion hr
      · rw [hrt] at hr
        obtain ⟨l1, l2⟩ := ih (fs, ss, logs) hrt
        cases hr
        exact ⟨by simpa using l1, List.Forall₂.cons rfl l2⟩
    | str s =>
      simp only [resolveList] at hr
      rcases hes : ev s with _ | f
      · rw [hes] at hr
        rcases hrt : resolveList ev t with e | ⟨fs, ss, logs⟩
        · rw [hrt] at hr; exact Except.noConfusion hr
        · rw [hrt] at hr
          obtain ⟨l1, l2⟩ := ih (fs, ss, logs) hrt
          cases hr
          exact ⟨l1, l2⟩
      · rw [hes] at hr
        rcases hrt : resolveList ev t with e | ⟨fs, ss, logs⟩
        · rw [hrt] at hr; exact Except.noConfusion hr
        · rw [hrt] at hr
          obtain ⟨l1, l2⟩ := ih (fs, ss, logs) hrt
          cases hr
          refine ⟨by simpa using l1, List.Forall₂.cons ?_ l2⟩
          show sourceEval ev (.raw s) = some f
          simpa [sourceEval] using hes

lemma checkCellArrayInput_aligned (ev : EvalFn) (arg : CellArg) :
    ∀ r, checkCellArrayInput ev arg = .ok r →
      r.1.length = r.2.1.length ∧ List.Forall₂ (AlignedPair ev) r.1 r.2.1 := by
  cases arg with
  | scalar i => exact resolveList_aligned ev [i]
  | arr l => exact resolveList_aligned ev l

/-- C10: whenever `checkCellArrayInput` returns, its function list and
string list have equal length and are pairwise aligned — evaluating the
i-th stored string (as the source would) yields the i-th stored function —
and consequently every function/string pair stored by the constructor
keeps this alignment. -/
theorem resolver_output_alignment :
    (∀ (ev : EvalFn) (arg : CellArg) r, checkCellArrayInput ev arg = .ok r →
      r.1.length = r.2.1.length ∧ List.Forall₂ (AlignedPair ev) r.1 r.2.1)
    ∧ (∀ (ev : EvalFn) (ID name : String) (cAxis : ℚ) (kw : Kwargs) (s : UCState),
      init ev ID name cAxis kw = .ok s →
        List.Forall₂ (AlignedPair ev) s.heatCapacity s.heatCapacityStr
        ∧ List.Forall₂ (AlignedPair ev) s.thermCond s.thermCondStr
        ∧ List.Forall₂ (AlignedPair ev) s.linThermExp s.linThermExpStr
        ∧ List.Forall₂ (AlignedPair ev) s.subSystemCoupling s.subSystemCouplingStr) := by
  refine ⟨fun ev arg => checkCellArrayInput_aligned ev arg, ?_⟩
  intro ev ID name cAxis kw s h
  simp only [init] at h
  rcases hA : checkCellArrayInput ev (kw.heatCapacity.getD defaultSpec) with e | rA
  · simp only [hA] at h; exact Except.noConfusion h
  simp only [hA] at h
  rcases hB : checkCellArrayInput ev (kw.thermCond.getD defaultSpec) with e | rB
  · simp only [hB] at h; exact Except.noConfusion h
  simp only [hB] at h
  rcases hC : checkCellArrayInput ev (kw.linThermExp.getD defaultSpec) with e | rC
  · simp only [hC] at h; exact Except.noConfusion h
  simp only [hC] at h
  rcases hD : checkCellArrayInput ev (kw.subSystemCoupling.getD defaultSpec) with e | rD
  · simp only [hD] at h; exact Except.noConfusion h
  simp only [hD] at h
  split at h
  · cases h
    exact ⟨(checkCellArrayInput_aligned ev _ rA hA).2,
           (checkCellArrayInput_aligned ev _ rB hB).2,
           (checkCellArrayInput_aligned ev _ rC hC).2,
           (checkCellArrayInput_aligned ev _ rD hD).2⟩
  · exact Except.noConfusion h

/-- Witness for C10 at the one-element numeric specification `1`. -/
theorem resolver_output_alignment_witness :
    (([fun _ : ℚ => round6f 1] : List PFunc).length = ([SStr.numLambdaT 1]).length)
    ∧ List.Forall₂ (AlignedPair evNone) [fun _ : ℚ => round6f 1] [SStr.numLambdaT 1] :=
  resolver_output_alignment.1 evNone (.scalar (.num 1))
    ([fun _ => round6f 1], [.numLambdaT 1], []) rfl

end UdkmUnitCell
